import Mathlib

/-!
Shallow embedding of `src/client/network/src/channel.rs` (the `Protocols`
transport facade, its TCP and in-process (mpsc) transport variants, the
listener accept loops, and the Drain/Sink adapters), together with proofs of
the specification claims about it.

Conventions of the embedding:
* bytes are modelled as `Nat`, byte buffers (`BytesMut`) as `List Nat`;
* `u64` arithmetic wraps modulo `2 ^ 64` where the source uses
  `AtomicU64::fetch_add`;
* fallible operations return `Except`; operations that can suspend without
  completing return `Option` (`none` = still suspended);
* the outcomes of OS / runtime calls (socket connect, `read`, `write`,
  `set_nodelay`, channel rendezvous) are inputs ("oracles") to the embedded
  functions, so every function is a pure, executable Lean `def`.
-/

namespace Channel

/-- io::ErrorKind values that `channel.rs` constructs or receives from the OS. -/
inductive IoErrorKind where
  | NotConnected
  | BrokenPipe
  | WriteZero
  | Os (code : Nat)
deriving DecidableEq, Repr

/-- An `std::io::Error`: a kind plus the message it was constructed with
(`""` for raw OS errors). -/
structure IoError where
  kind : IoErrorKind
  msg : String
deriving DecidableEq, Repr

/-- Modelled from the spec: the error type of `connect`
(`crate::api::NetworkConnectError`, whose declaring file `api.rs` is not in
`src/`). The spec's taxonomy is "`Io` (underlying transport failed to
establish), `NotListening` (in-process target absent)". `channel.rs` itself
constructs only the `Io` variant. -/
inductive NetworkConnectError where
  | Io (e : IoError)
  | NotListening
deriving DecidableEq, Repr

/-- The protocol-level error of `network_protocol` used by `channel.rs`:
`ProtocolError::Closed` is the single terminal error surfaced by the
Drain/Sink adapters. -/
inductive ProtocolError where
  | Closed
deriving DecidableEq, Repr

/-! ### The in-process connection registry (`MPSC_POOL`)

`MPSC_POOL : Mutex<HashMap<u64, mpsc::UnboundedSender<C2cMpscConnect>>>` maps
a numeric listen address to the rendezvous handle of the listener. We model
the `HashMap` extensionally as a function from addresses to optional handle
identifiers; `insert` overwrites, `get` looks up. -/

def Registry := Nat → Option Nat

def Registry.get (p : Registry) (addr : Nat) : Option Nat := p addr

def Registry.insert (p : Registry) (addr h : Nat) : Registry :=
  fun a => if a = addr then some h else p a

def Registry.empty : Registry := fun _ => none

/-- Constant `Protocols::MPSC_CHANNEL_BOUND`, the capacity of every bounded mpsc
channel allocated for an in-process connection (`channel.rs` line 60). -/
def MPSC_CHANNEL_BOUND : Nat := 1000

/-- The connector-side result of a successful `with_mpsc_connect`: the handle
of the listener it rendezvoused with, and the capacity of the
`remote_to_local` channel the connecting side allocated for its own receive
direction. -/
structure MpscConnectHalf where
  listenerHandle : Nat
  recvChannelCap : Nat
deriving DecidableEq, Repr

/-- Runtime outcomes that `with_mpsc_connect` observes after the registry
lookup: whether the unbounded rendezvous send reaches the listener, and
whether the oneshot reply carrying the listener's sender half arrives. -/
structure MpscConnectEnv where
  pool : Registry
  rendezvousSendOk : Bool
  oneshotReplyOk : Bool

/-- Model of `Protocols::with_mpsc_connect` (`channel.rs` lines 145-179): look up the
address in `MPSC_POOL`; if absent fail with
`NetworkConnectError::Io(io::Error::new(NotConnected, "no mpsc listen on this
addr"))`; otherwise allocate the `remote_to_local` channel with capacity
`MPSC_CHANNEL_BOUND`, send the rendezvous pair, await the oneshot reply
(each failure mapped to `Io(BrokenPipe, ...)`), and return the wired
connection half. -/
def with_mpsc_connect (env : MpscConnectEnv) (addr : Nat) :
    Except NetworkConnectError MpscConnectHalf :=
  match env.pool.get addr with
  | none =>
      Except.error (NetworkConnectError.Io
        ⟨IoErrorKind.NotConnected, "no mpsc listen on this addr"⟩)
  | some h =>
      if env.rendezvousSendOk then
        if env.oneshotReplyOk then
          Except.ok ⟨h, MPSC_CHANNEL_BOUND⟩
        else
          Except.error (NetworkConnectError.Io
            ⟨IoErrorKind.BrokenPipe, "oneshot recv failed during connect"⟩)
      else
        Except.error (NetworkConnectError.Io
          ⟨IoErrorKind.BrokenPipe, "mpsc pipe broke during connect"⟩)

/-! ### The connection-id counter

Both listeners receive a shared `cids : Arc<AtomicU64>` and issue each
accepted connection's `Cid` by `cids.fetch_add(1, Ordering::Relaxed)`
(`channel.rs` lines 123 and 203). An atomic read-modify-write linearizes
concurrent accepts, so a burst of concurrent accepts is faithfully modelled
as a sequence of `fetch_add` operations on the counter state. -/

def U64_MOD : Nat := 2 ^ 64

/-- Operation `AtomicU64::fetch_add(1, _)`: returns the previous value together with
the updated (wrapping) counter state. -/
def fetch_add1 (c : Nat) : Nat × Nat := (c, (c + 1) % U64_MOD)

/-- The connection ids issued by `n` successive accepts drawing from the
counter whose current state is `c`. -/
def issuedCids (c : Nat) : Nat → List Nat
  | 0 => []
  | n + 1 =>
      let p := fetch_add1 c
      p.1 :: issuedCids p.2 n

/-! ### TCP Drain (`UnreliableDrain for TcpDrain`, lines 301-311)

`send` calls `write_all` on the owned write half and maps any error to
`ProtocolError::Closed`. `write_all` repeatedly issues `write` syscalls until
the whole chunk is written or a syscall fails; we model the syscall outcomes
as an oracle list. -/

/-- Outcome of one underlying `write` syscall: it accepted `k` bytes, or it
failed with an io error. -/
inductive WriteStep where
  | wrote (k : Nat)
  | ioFail (e : IoError)
deriving DecidableEq, Repr

/-- Final status of a `write_all` run: finished, failed with an io error, or
still suspended (the oracle trace ended before the chunk was done). -/
inductive WriteOutcome where
  | done
  | ioFail (e : IoError)
  | pending
deriving DecidableEq, Repr

/-- Model of `write_all` over `remaining` outstanding bytes, driven by the oracle
trace of syscall outcomes. Returns the final status and the total number of
bytes actually written to the transport. A syscall that accepts `0` bytes is
the `WriteZero` error, as in the runtime's `write_all`. -/
def write_all : List WriteStep → Nat → WriteOutcome × Nat
  | _, 0 => (WriteOutcome.done, 0)
  | [], _ + 1 => (WriteOutcome.pending, 0)
  | WriteStep.ioFail e :: _, _ + 1 => (WriteOutcome.ioFail e, 0)
  | WriteStep.wrote k :: rest, r + 1 =>
      if k = 0 then (WriteOutcome.ioFail ⟨IoErrorKind.WriteZero, ""⟩, 0)
      else
        let kk := min k (r + 1)
        let p := write_all rest (r + 1 - kk)
        (p.1, kk + p.2)

/-- Model of `TcpDrain::send(data)`: `write_all(&data)` then `Ok(()) => Ok(())`,
`Err(_) => Err(ProtocolError::Closed)`. `none` means the call is still
suspended. Also returns the number of bytes that reached the transport. -/
def tcpDrainSend (steps : List WriteStep) (data : List Nat) :
    Option (Except ProtocolError Unit) × Nat :=
  let p := write_all steps data.length
  match p.1 with
  | WriteOutcome.done => (some (Except.ok ()), p.2)
  | WriteOutcome.ioFail _ => (some (Except.error ProtocolError.Closed), p.2)
  | WriteOutcome.pending => (none, p.2)

/-! ### TCP Sink (`UnreliableSink for TcpSink`, lines 313-325)

`recv` resizes the reusable `BytesMut` scratch buffer to 1500 bytes, issues
one `read` into it, and matches on the result: `Ok(0)` and `Err(_)` map to
`ProtocolError::Closed`; `Ok(n)` returns `buffer.split_to(n)`, the first `n`
bytes, leaving the rest in the buffer for reuse. -/

/-- Outcome of the single `read` syscall: the bytes it deposited at the
start of the buffer (`[]` models a zero-byte read, i.e. clean peer close),
or an io error. -/
inductive ReadResult where
  | data (bytes : List Nat)
  | ioErr (e : IoError)
deriving DecidableEq, Repr

/-- The `TcpSink` state: the reusable scratch buffer. -/
structure TcpSink where
  buffer : List Nat
deriving DecidableEq, Repr

/-- Model of `BytesMut::resize(len, 0u8)`: truncate to `len` or extend with zeroes. -/
def bytesResize (b : List Nat) (len : Nat) : List Nat :=
  b.take len ++ List.replicate (len - b.length) 0

/-- Model of `TcpSink::recv`: returns the produced chunk (or error) and the sink with
its scratch buffer after `split_to`. -/
def tcpSinkRecv (s : TcpSink) (r : ReadResult) :
    Except ProtocolError (List Nat) × TcpSink :=
  let buf := bytesResize s.buffer 1500
  match r with
  | ReadResult.ioErr _ => (Except.error ProtocolError.Closed, ⟨buf⟩)
  | ReadResult.data bytes =>
      let filled := bytes ++ buf.drop bytes.length
      if bytes.length = 0 then (Except.error ProtocolError.Closed, ⟨filled⟩)
      else (Except.ok (filled.take bytes.length), ⟨filled.drop bytes.length⟩)

/-! ### Mpsc Drain / Sink (`channel.rs` lines 339-358) and tokio's bounded
mpsc channel

A bounded `tokio::sync::mpsc` channel is a FIFO queue with a capacity: a
`send` on a full queue suspends the producer (it never drops a message), and
`Receiver::recv` yields the oldest queued message, or `None` once the sender
side is dropped and the queue is drained. -/

/-- State of one bounded mpsc channel: the queued messages (front = oldest)
and whether the sender side has been dropped. -/
structure ChanState where
  queue : List Nat
  senderDropped : Bool
deriving DecidableEq, Repr

/-- Model of `Sender::send` on a channel of capacity `cap`: `none` when the queue is
full (the producer suspends; the state is unchanged and nothing is dropped),
otherwise the state with the message enqueued at the back. -/
def chanSend (cap : Nat) (c : ChanState) (m : Nat) : Option ChanState :=
  if c.queue.length < cap then some ⟨c.queue ++ [m], c.senderDropped⟩ else none

/-- Model of `MpscSink::recv` = `self.receiver.recv().await.ok_or(ProtocolError::Closed)`:
yields the oldest queued message; once the channel is closed and drained the
runtime returns `None`, mapped to `Closed`; `none` here means the call is
still suspended (queue empty, sender alive). -/
def mpscSinkRecv (c : ChanState) : Option (Except ProtocolError Nat × ChanState) :=
  match c.queue with
  | m :: rest => some (Except.ok m, ⟨rest, c.senderDropped⟩)
  | [] => if c.senderDropped then some (Except.error ProtocolError.Closed, c) else none

/-- A schedule of channel operations: a producer's completed arrival at
`send`, or a consumer's arrival at `recv`. -/
inductive ChanOp where
  | send (m : Nat)
  | recv
deriving DecidableEq, Repr

/-- Result of running a schedule against one channel. -/
structure ChanRun where
  sent : List Nat
  received : List Nat
  final : ChanState
deriving DecidableEq, Repr

/-- Run a schedule of sends and recvs against a channel of capacity `cap`.
A send against a full queue suspends (the message is neither enqueued nor
dropped); a recv against an empty queue suspends. `sent` records the
messages whose send completed, in completion order; `received` records the
messages delivered, in delivery order. -/
def runChan (cap : Nat) : List ChanOp → ChanState → ChanRun
  | [], c => ⟨[], [], c⟩
  | ChanOp.send m :: rest, c =>
      match chanSend cap c m with
      | some c2 =>
          let r := runChan cap rest c2
          ⟨m :: r.sent, r.received, r.final⟩
      | none => runChan cap rest c
  | ChanOp.recv :: rest, c =>
      match c.queue with
      | [] => runChan cap rest c
      | m :: q =>
          let r := runChan cap rest ⟨q, c.senderDropped⟩
          ⟨r.sent, m :: r.received, r.final⟩

/-! ### The TCP accept loop (`Protocols::with_tcp_listen`, lines 105-128)

After binding, the spawned task loops: `select!` races `listener.accept()`
against the one-shot cancellation receiver. An accept error is logged via
`trace!` and the loop `continue`s; an accepted stream gets `set_nodelay`
(a failure is only logged via `warn!`), a fresh `Cid` from the shared atomic
counter, and is published to `c2s_protocol_s` (whose own send result is
discarded with `let _ =`). The loop body's observable inputs are modelled as
a trace of events, each the resolution of one `select!`. -/

/-- One resolution of the accept loop's `select!`: the cancellation signal
fired, `accept` returned an error, or `accept` returned a stream (`conn` is
an opaque token for it; `nodelayOk` is the outcome of `set_nodelay`). -/
inductive AcceptEvent where
  | cancel
  | acceptErr (e : IoError)
  | acceptOk (conn : Nat) (nodelayOk : Bool)
deriving DecidableEq, Repr

/-- Observable state of a listen loop run: the counter state, the
`(connection, cid)` pairs published to the consumer so far, and whether the
loop has exited. -/
structure ListenLoopResult where
  counter : Nat
  published : List (Nat × Nat)
  stopped : Bool
deriving DecidableEq, Repr

/-- Run the TCP accept loop from counter state `cnt` with already-published
list `pub` over a finite event trace. An exhausted trace leaves the loop
suspended in `select!` (`stopped = false`). -/
def tcpAcceptLoop (cnt : Nat) (pub : List (Nat × Nat)) :
    List AcceptEvent → ListenLoopResult
  | [] => ⟨cnt, pub, false⟩
  | AcceptEvent.cancel :: _ => ⟨cnt, pub, true⟩
  | AcceptEvent.acceptErr _ :: rest => tcpAcceptLoop cnt pub rest
  | AcceptEvent.acceptOk conn _ :: rest =>
      let p := fetch_add1 cnt
      tcpAcceptLoop p.2 (pub ++ [(conn, p.1)]) rest

/-! ### The mpsc listen loop (`Protocols::with_mpsc_listen`, lines 181-214)

`with_mpsc_listen` first inserts its rendezvous handle into `MPSC_POOL`
under `addr` (`HashMap::insert`, overwriting any previous entry), then
spawns a task that loops: `select!` races the rendezvous receiver against
the cancellation one-shot. Each rendezvous request gets a fresh bounded
channel of capacity `MPSC_CHANNEL_BOUND`; the reply over the requester's
one-shot may fail (logged via `error!`, but the loop body continues); a
fresh `Cid` is drawn and the connection published. -/

/-- A connection published by the mpsc listen loop: the opaque requester
token, its cid, and the capacity of the `remote_to_local` channel the
listener allocated for it. -/
structure MpscAccepted where
  conn : Nat
  cid : Nat
  listenChannelCap : Nat
deriving DecidableEq, Repr

/-- One resolution of the mpsc listen loop's `select!`: cancellation, or a
rendezvous request (`replyOk` is whether the one-shot reply to the requester
succeeded). -/
inductive MpscListenEvent where
  | cancel
  | request (conn : Nat) (replyOk : Bool)
deriving DecidableEq, Repr

/-- Observable state of an mpsc listen loop run. -/
structure MpscLoopResult where
  counter : Nat
  published : List MpscAccepted
  stopped : Bool
deriving DecidableEq, Repr

/-- Run the mpsc listen loop over a finite event trace. Note that a failed
one-shot reply does not skip the rest of the body: the cid is still drawn
and the connection still published, as in the source. -/
def mpscListenLoop (cnt : Nat) (pub : List MpscAccepted) :
    List MpscListenEvent → MpscLoopResult
  | [] => ⟨cnt, pub, false⟩
  | MpscListenEvent.cancel :: _ => ⟨cnt, pub, true⟩
  | MpscListenEvent.request conn _ :: rest =>
      let p := fetch_add1 cnt
      mpscListenLoop p.2 (pub ++ [⟨conn, p.1, MPSC_CHANNEL_BOUND⟩]) rest

/-- Model of `Protocols::with_mpsc_listen`: the registry effect (insert the handle
under `addr`) together with the spawned accept loop run over `events`. -/
def with_mpsc_listen (pool : Registry) (addr handle : Nat) (cnt : Nat)
    (events : List MpscListenEvent) : Registry × MpscLoopResult :=
  (Registry.insert pool addr handle, mpscListenLoop cnt [] events)

/-- The operations of `channel.rs` that touch `MPSC_POOL`: `with_mpsc_listen`
inserts its handle; `with_mpsc_connect` only reads (`get` + `clone`). No
operation in the module removes an entry. -/
inductive PoolOp where
  | listen (addr h : Nat)
  | connect (addr : Nat)
deriving DecidableEq, Repr

/-- Effect of a pool-touching operation on the registry. -/
def applyPoolOp (op : PoolOp) (p : Registry) : Registry :=
  match op with
  | PoolOp.listen addr h => Registry.insert p addr h
  | PoolOp.connect _ => p

/-! ### The facade and `split` (`channel.rs` lines 29-46 and 227-232) -/

/-- Opaque stand-in for `TcpSendProtocol<TcpDrain>`. -/
structure TcpSendP where
  token : Nat
deriving DecidableEq, Repr

/-- Opaque stand-in for `TcpRecvProtocol<TcpSink>`. -/
structure TcpRecvP where
  token : Nat
deriving DecidableEq, Repr

/-- Opaque stand-in for `MpscSendProtocol<MpscDrain>`. -/
structure MpscSendP where
  token : Nat
deriving DecidableEq, Repr

/-- Opaque stand-in for `MpscRecvProtocol<MpscSink>`. -/
structure MpscRecvP where
  token : Nat
deriving DecidableEq, Repr

/-- The `Protocols` facade: exactly one transport variant, each holding the
pair of its send and recv protocol halves. -/
inductive Protocols where
  | Tcp : TcpSendP × TcpRecvP → Protocols
  | Mpsc : MpscSendP × MpscRecvP → Protocols
deriving DecidableEq, Repr

/-- The send-half union. -/
inductive SendProtocols where
  | Tcp : TcpSendP → SendProtocols
  | Mpsc : MpscSendP → SendProtocols
deriving DecidableEq, Repr

/-- The recv-half union. -/
inductive RecvProtocols where
  | Tcp : TcpRecvP → RecvProtocols
  | Mpsc : MpscRecvP → RecvProtocols
deriving DecidableEq, Repr

/-- Model of `Protocols::split(self)`: consumes the facade (pass-by-value in the
source; in Lean the linearity of the Rust move is a type-system fact, the
function itself is the pure variant-preserving projection). -/
def Protocols.split : Protocols → SendProtocols × RecvProtocols
  | Protocols.Tcp (s, r) => (SendProtocols.Tcp s, RecvProtocols.Tcp r)
  | Protocols.Mpsc (s, r) => (SendProtocols.Mpsc s, RecvProtocols.Mpsc r)

/-! ### `Protocols::with_tcp_connect` (lines 62-78)

`TcpStream::connect(addr).and_then(|s| { s.set_nodelay(true)?; Ok(s) })`
is mapped through `NetworkConnectError::Io`; then `stream.peer_addr()` (used
in the `info!` log line) is also mapped through `NetworkConnectError::Io`;
only then is `new_tcp` returned. -/

/-- Outcomes of the three fallible runtime calls made by
`with_tcp_connect`, in program order. -/
structure TcpConnectEnv where
  connectRes : Except IoError Unit
  nodelayRes : Except IoError Unit
  peerAddrRes : Except IoError Unit

/-- The `Protocols::new_tcp` effect visible to this model: the recv side starts
with a fresh empty `BytesMut` scratch buffer. -/
def new_tcp : TcpSink := ⟨[]⟩

/-- Model of `Protocols::with_tcp_connect` as a function of its runtime outcomes. -/
def with_tcp_connect (env : TcpConnectEnv) : Except NetworkConnectError TcpSink :=
  match env.connectRes with
  | Except.error e => Except.error (NetworkConnectError.Io e)
  | Except.ok _ =>
      match env.nodelayRes with
      | Except.error e => Except.error (NetworkConnectError.Io e)
      | Except.ok _ =>
          match env.peerAddrRes with
          | Except.error e => Except.error (NetworkConnectError.Io e)
          | Except.ok _ => Except.ok new_tcp

/-! ## Theorems -/

/-- C1 counterexample: with no listener registered for address `0`, the
in-process connect fails with `NetworkConnectError::Io` (kind
`NotConnected`, message "no mpsc listen on this addr"), not with a
`NotListening` variant as the claim states. -/
theorem mpsc_connect_no_listener_counterexample :
    with_mpsc_connect ⟨Registry.empty, true, true⟩ 0
      = Except.error (NetworkConnectError.Io
          ⟨IoErrorKind.NotConnected, "no mpsc listen on this addr"⟩)
    ∧ with_mpsc_connect ⟨Registry.empty, true, true⟩ 0
      ≠ Except.error NetworkConnectError.NotListening := by
  refine ⟨rfl, ?_⟩
  intro h
  have h2 : NetworkConnectError.Io
      ⟨IoErrorKind.NotConnected, "no mpsc listen on this addr"⟩
      = NetworkConnectError.NotListening := by
    have h1 : with_mpsc_connect ⟨Registry.empty, true, true⟩ 0
        = Except.error (NetworkConnectError.Io
            ⟨IoErrorKind.NotConnected, "no mpsc listen on this addr"⟩) := rfl
    exact Except.error.inj (h1 ▸ h)
  cases h2

/-- C1 (amended): for every in-process connect attempt to an address with no
matching listener registered in the registry, `with_mpsc_connect` fails with
`NetworkConnectError::Io` wrapping an `io::Error` of kind `NotConnected` and
message "no mpsc listen on this addr"; the other failures of
`with_mpsc_connect` (rendezvous pipe breakage) are also reported through the
`Io` variant. -/
theorem mpsc_connect_no_listener_io (env : MpscConnectEnv) (addr : Nat)
    (h : env.pool.get addr = none) :
    with_mpsc_connect env addr
      = Except.error (NetworkConnectError.Io
          ⟨IoErrorKind.NotConnected, "no mpsc listen on this addr"⟩) := by
  unfold with_mpsc_connect
  rw [h]

/-- Witness for `mpsc_connect_no_listener_io` at the empty registry. -/
theorem mpsc_connect_no_listener_io_witness :
    with_mpsc_connect ⟨Registry.empty, true, true⟩ 5
      = Except.error (NetworkConnectError.Io
          ⟨IoErrorKind.NotConnected, "no mpsc listen on this addr"⟩) :=
  mpsc_connect_no_listener_io ⟨Registry.empty, true, true⟩ 5 rfl

/-- Absent wraparound of the 64-bit counter, the issued cids form the
arithmetic progression starting at the counter's current value. -/
theorem issuedCids_eq_range (n : Nat) : ∀ c : Nat, c + n ≤ U64_MOD →
    issuedCids c n = List.range' c n := by
  induction n with
  | zero => intro c _; rfl
  | succ m ih =>
      intro c hc
      have hstep : issuedCids c (m + 1) = c :: issuedCids ((c + 1) % U64_MOD) m := rfl
      rw [hstep, List.range'_succ]
      cases m with
      | zero => rfl
      | succ k =>
          have h1 : c + 1 < U64_MOD := by omega
          rw [Nat.mod_eq_of_lt h1, ih (c + 1) (by omega)]

/-- C2: for every sequence of accepts drawing ids from the same listener
counter (`cids.fetch_add(1, _)` linearizes concurrent accepts into such a
sequence), as long as the 64-bit counter does not wrap, the issued
connection ids are strictly increasing in issue order — so each newly issued
id exceeds every previously issued one — and pairwise distinct. -/
theorem cids_distinct_and_increasing (c n : Nat) (h : c + n ≤ U64_MOD) :
    (issuedCids c n).Pairwise (· < ·) ∧ (issuedCids c n).Nodup := by
  rw [issuedCids_eq_range n c h]
  exact ⟨List.pairwise_lt_range' c n, List.nodup_range' c n⟩

/-- Witness for `cids_distinct_and_increasing` at counter 0 and three
accepts. -/
theorem cids_distinct_and_increasing_witness :
    (issuedCids 0 3).Pairwise (· < ·) ∧ (issuedCids 0 3).Nodup :=
  cids_distinct_and_increasing 0 3 (by norm_num [U64_MOD])

/-- C3: every `TcpSink::recv` call presents the reusable scratch buffer
resized to exactly 1500 bytes to the `read` syscall; a read that delivers
`n > 0` bytes yields `Ok` with a chunk of exactly those `n` bytes; a
zero-byte read (clean peer close) and a read error both yield
`Err(ProtocolError::Closed)`. -/
theorem tcp_sink_recv_spec (s : TcpSink) :
    (bytesResize s.buffer 1500).length = 1500
    ∧ (∀ bytes : List Nat, bytes ≠ [] →
        (tcpSinkRecv s (ReadResult.data bytes)).1 = Except.ok bytes)
    ∧ (tcpSinkRecv s (ReadResult.data [])).1 = Except.error ProtocolError.Closed
    ∧ (∀ e, (tcpSinkRecv s (ReadResult.ioErr e)).1
        = Except.error ProtocolError.Closed) := by
  refine ⟨?_, ?_, rfl, fun _ => rfl⟩
  · simp only [bytesResize, List.length_append, List.length_take,
      List.length_replicate]
    omega
  · intro bytes hb
    have h0 : ¬ bytes.length = 0 := fun h => hb (List.length_eq_zero.mp h)
    simp [tcpSinkRecv, h0, List.take_left]

/-- Witness for `tcp_sink_recv_spec`: a two-byte read from a sink whose
scratch buffer still holds stale bytes is returned exactly. -/
theorem tcp_sink_recv_spec_witness :
    (tcpSinkRecv ⟨[9, 9, 9]⟩ (ReadResult.data [7, 8])).1 = Except.ok [7, 8] :=
  (tcp_sink_recv_spec ⟨[9, 9, 9]⟩).2.1 [7, 8] (by decide)

/-- When `write_all` reports completion, the number of bytes written to the
transport equals the number of outstanding bytes. -/
theorem write_all_done_written : ∀ (steps : List WriteStep) (r : Nat),
    (write_all steps r).1 = WriteOutcome.done → (write_all steps r).2 = r := by
  intro steps
  induction steps with
  | nil =>
      intro r h
      cases r with
      | zero => rfl
      | succ k => simp [write_all] at h
  | cons st rest ih =>
      intro r h
      cases r with
      | zero => cases st <;> rfl
      | succ k =>
          cases st with
          | ioFail e => simp [write_all] at h
          | wrote m =>
              by_cases hm : m = 0
              · simp [write_all, hm] at h
              · simp only [write_all, hm, if_false, ite_false] at h ⊢
                have hrec := ih (k + 1 - min m (k + 1)) h
                simp only [hrec]
                omega

/-- C4: `TcpDrain::send` returns success only when the entire chunk has been
written to the write half (bytes written = chunk length); any write failure,
partial writes included, surfaces as exactly `ProtocolError::Closed`, with no
partial-success signalling in the return value. -/
theorem tcp_drain_send_spec (steps : List WriteStep) (data : List Nat)
    (res : Except ProtocolError Unit)
    (h : (tcpDrainSend steps data).1 = some res) :
    (res = Except.ok () ∧ (tcpDrainSend steps data).2 = data.length)
    ∨ res = Except.error ProtocolError.Closed := by
  cases hw : (write_all steps data.length).1 with
  | done =>
      left
      constructor
      · simp [tcpDrainSend, hw] at h
        exact h.symm
      · simp only [tcpDrainSend, hw]
        exact write_all_done_written steps data.length hw
  | ioFail e =>
      right
      simp [tcpDrainSend, hw] at h
      exact h.symm
  | pending =>
      exfalso
      simp [tcpDrainSend, hw] at h

/-- Witness for `tcp_drain_send_spec`: one syscall that accepts all three
bytes completes the send with the full chunk written. -/
theorem tcp_drain_send_spec_witness :
    ((Except.ok () : Except ProtocolError Unit) = Except.ok ()
        ∧ (tcpDrainSend [WriteStep.wrote 3] [1, 2, 3]).2 = [1, 2, 3].length)
    ∨ (Except.ok () : Except ProtocolError Unit)
        = Except.error ProtocolError.Closed :=
  tcp_drain_send_spec [WriteStep.wrote 3] [1, 2, 3] (Except.ok ()) rfl

/-- The accept loop only appends to the list of published connections. -/
theorem tcpAcceptLoop_published_extends :
    ∀ (tr : List AcceptEvent) (cnt : Nat) (pub : List (Nat × Nat)),
    ∃ t, (tcpAcceptLoop cnt pub tr).published = pub ++ t := by
  intro tr
  induction tr with
  | nil => intro cnt pub; exact ⟨[], by simp [tcpAcceptLoop]⟩
  | cons ev rest ih =>
      intro cnt pub
      cases ev with
      | cancel => exact ⟨[], by simp [tcpAcceptLoop]⟩
      | acceptErr e => simpa [tcpAcceptLoop] using ih cnt pub
      | acceptOk conn b =>
          obtain ⟨t, ht⟩ := ih ((cnt + 1) % U64_MOD) (pub ++ [(conn, cnt)])
          refine ⟨(conn, cnt) :: t, ?_⟩
          have hstep : tcpAcceptLoop cnt pub (AcceptEvent.acceptOk conn b :: rest)
              = tcpAcceptLoop ((cnt + 1) % U64_MOD) (pub ++ [(conn, cnt)]) rest := rfl
          rw [hstep, ht]
          simp

/-- C5: the TCP accept loop never terminates because of a failed accept
attempt: an accept error leaves the loop state completely unchanged and the
loop proceeds to the next iteration (so every later event of the trace is
handled exactly as if the failure had not happened), and the loop exits if
and only if the cancellation signal fires in the trace. -/
theorem tcp_accept_loop_resilient (cnt : Nat) (pub : List (Nat × Nat)) :
    (∀ e rest, tcpAcceptLoop cnt pub (AcceptEvent.acceptErr e :: rest)
        = tcpAcceptLoop cnt pub rest)
    ∧ (∀ tr, (tcpAcceptLoop cnt pub tr).stopped = true
        ↔ AcceptEvent.cancel ∈ tr) := by
  constructor
  · intro e rest; rfl
  · intro tr
    induction tr generalizing cnt pub with
    | nil => simp [tcpAcceptLoop]
    | cons ev rest ih =>
        cases ev with
        | cancel => simp [tcpAcceptLoop]
        | acceptErr e =>
            simpa [tcpAcceptLoop] using ih cnt pub
        | acceptOk conn b =>
            have hstep : tcpAcceptLoop cnt pub (AcceptEvent.acceptOk conn b :: rest)
                = tcpAcceptLoop ((cnt + 1) % U64_MOD) (pub ++ [(conn, cnt)]) rest := rfl
            rw [hstep]
            simpa using ih ((cnt + 1) % U64_MOD) (pub ++ [(conn, cnt)])

/-- C6: `split` maps each facade value to the send and recv halves of the
same transport variant, returning exactly the two protocol halves stored in
the facade; consumption of the facade (so that `split` can be applied at
most once to a given value) is the Rust move semantics of the
pass-by-value `self`. -/
theorem protocols_split_exact :
    (∀ (s : TcpSendP) (r : TcpRecvP),
        (Protocols.Tcp (s, r)).split = (SendProtocols.Tcp s, RecvProtocols.Tcp r))
    ∧ (∀ (s : MpscSendP) (r : MpscRecvP),
        (Protocols.Mpsc (s, r)).split
          = (SendProtocols.Mpsc s, RecvProtocols.Mpsc r)) :=
  ⟨fun _ _ => rfl, fun _ _ => rfl⟩

/-- FIFO invariant of a bounded mpsc channel run: the messages delivered so
far followed by the messages still queued are exactly the initial queue
followed by the messages whose send completed, in completion order. -/
theorem runChan_fifo : ∀ (cap : Nat) (ops : List ChanOp) (c : ChanState),
    (runChan cap ops c).received ++ (runChan cap ops c).final.queue
      = c.queue ++ (runChan cap ops c).sent := by
  intro cap ops
  induction ops with
  | nil => intro c; simp [runChan]
  | cons op rest ih =>
      intro c
      cases op with
      | send m =>
          by_cases hfull : c.queue.length < cap
          · have hs : chanSend cap c m = some ⟨c.queue ++ [m], c.senderDropped⟩ := by
              simp [chanSend, hfull]
            have hstep : runChan cap (ChanOp.send m :: rest) c
                = let r := runChan cap rest ⟨c.queue ++ [m], c.senderDropped⟩
                  ⟨m :: r.sent, r.received, r.final⟩ := by
              simp [runChan, hs]
            rw [hstep]
            have := ih ⟨c.queue ++ [m], c.senderDropped⟩
            simpa using this
          · have hs : chanSend cap c m = none := by simp [chanSend, hfull]
            have hstep : runChan cap (ChanOp.send m :: rest) c
                = runChan cap rest c := by simp [runChan, hs]
            rw [hstep]
            exact ih c
      | recv =>
          rcases hq : c.queue with _ | ⟨m, q⟩
          · have hstep : runChan cap (ChanOp.recv :: rest) c = runChan cap rest c := by
              simp [runChan, hq]
            rw [hstep]
            have h2 := ih c
            rw [hq] at h2
            simpa using h2
          · have hstep : runChan cap (ChanOp.recv :: rest) c
                = let r := runChan cap rest ⟨q, c.senderDropped⟩
                  ⟨r.sent, m :: r.received, r.final⟩ := by
              simp [runChan, hq]
            rw [hstep]
            have := ih ⟨q, c.senderDropped⟩
            simpa using this

/-- Every connection published by the mpsc listen loop carries a channel of
capacity `MPSC_CHANNEL_BOUND` unless it was already in the published list the
loop started from. -/
theorem mpscListenLoop_published_cap :
    ∀ (events : List MpscListenEvent) (cnt : Nat) (pub : List MpscAccepted)
      (a : MpscAccepted),
    a ∈ (mpscListenLoop cnt pub events).published →
    a ∈ pub ∨ a.listenChannelCap = MPSC_CHANNEL_BOUND := by
  intro events
  induction events with
  | nil =>
      intro cnt pub a h
      exact Or.inl (by simpa [mpscListenLoop] using h)
  | cons ev rest ih =>
      intro cnt pub a h
      cases ev with
      | cancel => exact Or.inl (by simpa [mpscListenLoop] using h)
      | request conn rok =>
          have hstep : mpscListenLoop cnt pub (MpscListenEvent.request conn rok :: rest)
              = mpscListenLoop ((cnt + 1) % U64_MOD)
                  (pub ++ [⟨conn, cnt, MPSC_CHANNEL_BOUND⟩]) rest := rfl
          rw [hstep] at h
          rcases ih ((cnt + 1) % U64_MOD) (pub ++ [⟨conn, cnt, MPSC_CHANNEL_BOUND⟩]) a h
            with hmem | hcap
          · rcases List.mem_append.mp hmem with h1 | h2
            · exact Or.inl h1
            · right
              have ha : a = ⟨conn, cnt, MPSC_CHANNEL_BOUND⟩ := by simpa using h2
              rw [ha]
          · exact Or.inr hcap

/-- C7: `MPSC_CHANNEL_BOUND` is 1000; the connecting side allocates its
receive-direction channel with that capacity and the listening side
allocates the channel of every accepted connection with that capacity; a
send against a full channel suspends the producer without changing the
channel (nothing is dropped); and any schedule of sends and recvs against
such a channel delivers exactly a prefix of the completed sends, in send
order (lossless, ordered). -/
theorem mpsc_channels_bounded_lossless :
    MPSC_CHANNEL_BOUND = 1000
    ∧ (∀ (env : MpscConnectEnv) (addr : Nat) (conn : MpscConnectHalf),
        with_mpsc_connect env addr = Except.ok conn →
        conn.recvChannelCap = MPSC_CHANNEL_BOUND)
    ∧ (∀ (pool : Registry) (addr handle cnt : Nat)
        (events : List MpscListenEvent) (a : MpscAccepted),
        a ∈ (with_mpsc_listen pool addr handle cnt events).2.published →
        a.listenChannelCap = MPSC_CHANNEL_BOUND)
    ∧ (∀ (c : ChanState) (m : Nat), ¬ c.queue.length < MPSC_CHANNEL_BOUND →
        chanSend MPSC_CHANNEL_BOUND c m = none)
    ∧ (∀ ops : List ChanOp, ∃ t,
        (runChan MPSC_CHANNEL_BOUND ops ⟨[], false⟩).received ++ t
          = (runChan MPSC_CHANNEL_BOUND ops ⟨[], false⟩).sent) := by
  refine ⟨rfl, ?_, ?_, ?_, ?_⟩
  · intro env addr conn h
    unfold with_mpsc_connect at h
    split at h
    · exact Except.noConfusion h
    · split at h
      · split at h
        · cases h; rfl
        · exact Except.noConfusion h
      · exact Except.noConfusion h
  · intro pool addr handle cnt events a h
    have := mpscListenLoop_published_cap events cnt [] a h
    simpa using this
  · intro c m hfull
    simp [chanSend, hfull]
  · intro ops
    refine ⟨(runChan MPSC_CHANNEL_BOUND ops ⟨[], false⟩).final.queue, ?_⟩
    simpa using runChan_fifo MPSC_CHANNEL_BOUND ops ⟨[], false⟩

/-- Witness for `mpsc_channels_bounded_lossless`: a concrete successful
connect yields a channel of capacity 1000, and a send against a channel
holding 1000 queued messages suspends. -/
theorem mpsc_channels_bounded_lossless_witness :
    (⟨3, MPSC_CHANNEL_BOUND⟩ : MpscConnectHalf).recvChannelCap = MPSC_CHANNEL_BOUND
    ∧ chanSend MPSC_CHANNEL_BOUND ⟨List.replicate 1000 0, false⟩ 7 = none :=
  ⟨mpsc_channels_bounded_lossless.2.1
      ⟨Registry.insert Registry.empty 2 3, true, true⟩ 2 ⟨3, MPSC_CHANNEL_BOUND⟩ rfl,
   mpsc_channels_bounded_lossless.2.2.2.1 ⟨List.replicate 1000 0, false⟩ 7
      (by rw [List.length_replicate]; norm_num [MPSC_CHANNEL_BOUND])⟩

/-- C8: at the recv level, a clean peer shutdown and an abrupt peer loss are
indistinguishable on every transport variant: for TCP, a zero-byte read
(clean close) and a read error (abrupt loss, whatever the io error) produce
the identical result `Err(ProtocolError::Closed)`; for mpsc, recv on a
closed-and-drained channel produces `Err(ProtocolError::Closed)` as well. -/
theorem closed_uniform_on_peer_loss :
    (∀ (s : TcpSink) (e : IoError),
        (tcpSinkRecv s (ReadResult.data [])).1
          = Except.error ProtocolError.Closed
        ∧ (tcpSinkRecv s (ReadResult.ioErr e)).1
          = Except.error ProtocolError.Closed
        ∧ (tcpSinkRecv s (ReadResult.data [])).1
          = (tcpSinkRecv s (ReadResult.ioErr e)).1)
    ∧ mpscSinkRecv ⟨[], true⟩
        = some (Except.error ProtocolError.Closed, ⟨[], true⟩) :=
  ⟨fun _ _ => ⟨rfl, rfl, rfl⟩, rfl⟩

/-- C9: `with_mpsc_listen` inserts its rendezvous handle into the registry
under the given address, overwriting whatever entry was there; every other
address is untouched by the listen; and neither of the module's
registry-touching operations (`with_mpsc_listen` inserts,
`with_mpsc_connect` only reads) ever removes an entry, so every mapped
address stays mapped. -/
theorem mpsc_listen_registry_frame :
    (∀ (pool : Registry) (addr handle cnt : Nat) (events : List MpscListenEvent),
        Registry.get (with_mpsc_listen pool addr handle cnt events).1 addr
          = some handle)
    ∧ (∀ (pool : Registry) (addr handle cnt : Nat) (events : List MpscListenEvent)
        (a : Nat), a ≠ addr →
        Registry.get (with_mpsc_listen pool addr handle cnt events).1 a
          = Registry.get pool a)
    ∧ (∀ (op : PoolOp) (pool : Registry) (a v : Nat),
        Registry.get pool a = some v →
        ∃ w, Registry.get (applyPoolOp op pool) a = some w) := by
  refine ⟨?_, ?_, ?_⟩
  · intro pool addr handle cnt events
    simp [with_mpsc_listen, Registry.insert, Registry.get]
  · intro pool addr handle cnt events a ha
    simp [with_mpsc_listen, Registry.insert, Registry.get, ha]
  · intro op pool a v hv
    cases op with
    | connect addr => exact ⟨v, hv⟩
    | listen addr h =>
        by_cases ha : a = addr
        · exact ⟨h, by simp [applyPoolOp, Registry.insert, Registry.get, ha]⟩
        · exact ⟨v, by simpa [applyPoolOp, Registry.insert, Registry.get, ha] using hv⟩

/-- Witness for `mpsc_listen_registry_frame`: a listen on address 1 leaves
address 2 unmapped, and a connect lookup leaves an existing entry for
address 3 in place. -/
theorem mpsc_listen_registry_frame_witness :
    Registry.get (with_mpsc_listen Registry.empty 1 9 0 []).1 2
      = Registry.get Registry.empty 2
    ∧ ∃ w, Registry.get
        (applyPoolOp (PoolOp.connect 4) (Registry.insert Registry.empty 3 8)) 3
        = some w :=
  ⟨mpsc_listen_registry_frame.2.1 Registry.empty 1 9 0 [] 2 (by decide),
   mpsc_listen_registry_frame.2.2 (PoolOp.connect 4)
      (Registry.insert Registry.empty 3 8) 3 8 rfl⟩

/-- C10: `set_nodelay` failures are handled asymmetrically. On the
connecting side, a `set_nodelay` failure makes `with_tcp_connect` fail
entirely with `NetworkConnectError::Io` carrying that error. In the accept
loop, the `set_nodelay` outcome has no influence at all on the iteration
(the failure is only logged): the loop state is identical whether it failed
or succeeded, and the accepted connection is still assigned its cid and
published to the consumer. -/
theorem nodelay_asymmetry :
    (∀ (env : TcpConnectEnv) (e : IoError),
        env.connectRes = Except.ok () → env.nodelayRes = Except.error e →
        with_tcp_connect env = Except.error (NetworkConnectError.Io e))
    ∧ (∀ (cnt : Nat) (pub : List (Nat × Nat)) (conn : Nat)
        (rest : List AcceptEvent),
        tcpAcceptLoop cnt pub (AcceptEvent.acceptOk conn false :: rest)
          = tcpAcceptLoop cnt pub (AcceptEvent.acceptOk conn true :: rest))
    ∧ (∀ (cnt : Nat) (pub : List (Nat × Nat)) (conn : Nat) (b : Bool)
        (rest : List AcceptEvent),
        (conn, cnt) ∈
          (tcpAcceptLoop cnt pub (AcceptEvent.acceptOk conn b :: rest)).published) := by
  refine ⟨?_, ?_, ?_⟩
  · intro env e hc hn
    unfold with_tcp_connect
    rw [hc, hn]
  · intro cnt pub conn rest; rfl
  · intro cnt pub conn b rest
    have hstep : tcpAcceptLoop cnt pub (AcceptEvent.acceptOk conn b :: rest)
        = tcpAcceptLoop ((cnt + 1) % U64_MOD) (pub ++ [(conn, cnt)]) rest := rfl
    rw [hstep]
    obtain ⟨t, ht⟩ :=
      tcpAcceptLoop_published_extends rest ((cnt + 1) % U64_MOD) (pub ++ [(conn, cnt)])
    rw [ht]
    simp

/-- Witness for `nodelay_asymmetry`: a connect whose socket opens but whose
`set_nodelay` fails with OS error 13 is rejected with `Io` of that same
error, and an accepted connection whose `set_nodelay` failed is still
published with cid 0. -/
theorem nodelay_asymmetry_witness :
    with_tcp_connect ⟨Except.ok (), Except.error ⟨IoErrorKind.Os 13, ""⟩, Except.ok ()⟩
      = Except.error (NetworkConnectError.Io ⟨IoErrorKind.Os 13, ""⟩)
    ∧ (42, 0) ∈ (tcpAcceptLoop 0 [] [AcceptEvent.acceptOk 42 false]).published :=
  ⟨nodelay_asymmetry.1 ⟨Except.ok (), Except.error ⟨IoErrorKind.Os 13, ""⟩, Except.ok ()⟩
      ⟨IoErrorKind.Os 13, ""⟩ rfl rfl,
   nodelay_asymmetry.2.2 0 [] 42 false []⟩

/-- Witness for `tcp_accept_loop_resilient`: a trace with one failed accept
followed by a successful accept publishes the success and only stops at the
cancellation event. -/
theorem tcp_accept_loop_resilient_witness :
    tcpAcceptLoop 0 [] [AcceptEvent.acceptErr ⟨IoErrorKind.Os 104, ""⟩,
        AcceptEvent.acceptOk 42 true]
      = tcpAcceptLoop 0 [] [AcceptEvent.acceptOk 42 true]
    ∧ (tcpAcceptLoop 0 [] [AcceptEvent.acceptErr ⟨IoErrorKind.Os 104, ""⟩,
        AcceptEvent.cancel]).stopped = true :=
  ⟨(tcp_accept_loop_resilient 0 []).1 ⟨IoErrorKind.Os 104, ""⟩
      [AcceptEvent.acceptOk 42 true],
   ((tcp_accept_loop_resilient 0 []).2
      [AcceptEvent.acceptErr ⟨IoErrorKind.Os 104, ""⟩, AcceptEvent.cancel]).mpr
      (by decide)⟩

/-- Witness for `protocols_split_exact` on concrete facade values of both
variants. -/
theorem protocols_split_exact_witness :
    (Protocols.Tcp (⟨1⟩, ⟨2⟩)).split
      = (SendProtocols.Tcp ⟨1⟩, RecvProtocols.Tcp ⟨2⟩)
    ∧ (Protocols.Mpsc (⟨3⟩, ⟨4⟩)).split
      = (SendProtocols.Mpsc ⟨3⟩, RecvProtocols.Mpsc ⟨4⟩) :=
  ⟨protocols_split_exact.1 ⟨1⟩ ⟨2⟩, protocols_split_exact.2 ⟨3⟩ ⟨4⟩⟩

/-- Witness for `closed_uniform_on_peer_loss` at a concrete sink: zero-byte
read and connection-reset read error give the identical `Closed`. -/
theorem closed_uniform_on_peer_loss_witness :
    (tcpSinkRecv ⟨[5]⟩ (ReadResult.data [])).1
      = (tcpSinkRecv ⟨[5]⟩ (ReadResult.ioErr ⟨IoErrorKind.Os 104, ""⟩)).1 :=
  (closed_uniform_on_peer_loss.1 ⟨[5]⟩ ⟨IoErrorKind.Os 104, ""⟩).2.2

end Channel
